import Mathlib

/-!
Verification development for the MyEzz ONDC logistics BAP repository.

The definitions below are a shallow embedding of the repository's
Protocol Authentication & Transaction Correlation Engine:

* `bap-server/crypto/sign.js` and `bap-server/crypto/verify.js`
  (ed25519 signing/verification via tweetnacl, digesting, the
  Authorization header codec and the header verifier);
* the in-memory transaction correlation store (`bap-server/store.js`);
* the inbound callback handlers `routes/on_confirm.js`, `routes/on_cancel.js`;
* the challenge decryption used by `routes/select.js` (`POST /on_subscribe`).

Machine-level conventions: bytes are `Nat` values `< 256`; JS strings are
Lean `String`s; JS `undefined`/absent values are `Option.none`; a JS
function that can throw is embedded with an `Option`/`Except` result, and
a JS `try/catch` is an explicit `match` on that result.

External library primitives (sha256/sha512 inside `crypto` and
`tweetnacl`) are not code of this repository; they enter the embedding as
explicit parameters (`CryptoPrims`) or, for the elliptic-curve group, as
the standard discrete-log model: tweetnacl's ed25519 implements the cyclic
group generated by the base point `B`, of prime order
`L = 2^252 + 27742317777372353535851937790883648493`; a point `x·B` is
represented by its discrete logarithm `x : ZMod L`, the base point by
`1`, point addition by `+` and scalar multiplication by `*`.  The hash
derivations of ed25519 (secret-scalar clamping, deterministic nonce,
challenge hash) are the parameters `Hsecret`, `Hnonce`, `Hchal`; every
theorem below quantifies over them, so it holds in particular for the
sha512-based instances tweetnacl uses.
-/

namespace BAP

/-! ## Bytes and little-endian encoding -/

/-- Little-endian byte encoding of a natural number into exactly `len` bytes,
as tweetnacl's `pack25519`/scalar packing does. -/
def natToBytesLE : Nat → Nat → List Nat
  | 0, _ => []
  | len + 1, n => n % 256 :: natToBytesLE len (n / 256)

/-- Little-endian byte decoding, inverse of `natToBytesLE`. -/
def bytesToNatLE : List Nat → Nat
  | [] => 0
  | b :: bs => b + 256 * bytesToNatLE bs

/-! ## Base64 (tweetnacl-util)

`naclUtil.encodeBase64` / `naclUtil.decodeBase64`: the decoder first
validates the string shape and throws `TypeError('invalid encoding')` on
anything else, which we embed as `Option.none`. -/

/-- The RFC 4648 base64 alphabet in index order. -/
def b64Alphabet : List Char :=
  "ABCDEFGHIJKLMNOPQRSTUVWXYZabcdefghijklmnopqrstuvwxyz0123456789+/".data

/-- Character for a sextet value. -/
def b64Char (n : Nat) : Char := b64Alphabet.getD n 'A'

/-- Sextet value of a base64 character, `none` for a non-alphabet character. -/
def b64Val (c : Char) : Option Nat :=
  b64Alphabet.findIdx? (fun d => d = c)

/-- Base64 encoding of a byte list (RFC 4648 with `=` padding), as
`naclUtil.encodeBase64` produces. -/
def encodeB64 : List Nat → List Char
  | [] => []
  | [b0] => [b64Char (b0 / 4), b64Char (b0 % 4 * 16), '=', '=']
  | [b0, b1] => [b64Char (b0 / 4), b64Char (b0 % 4 * 16 + b1 / 16), b64Char (b1 % 16 * 4), '=']
  | b0 :: b1 :: b2 :: rest =>
      b64Char (b0 / 4) :: b64Char (b0 % 4 * 16 + b1 / 16) ::
      b64Char (b1 % 16 * 4 + b2 / 64) :: b64Char (b2 % 64) :: encodeB64 rest

/-- Base64 decoding of a character list; `none` models the `TypeError`
that `naclUtil.decodeBase64` throws on a malformed encoding (wrong
length, bad character, or interior padding). -/
def decodeB64 : List Char → Option (List Nat)
  | [] => some []
  | c0 :: c1 :: c2 :: c3 :: rest =>
    match b64Val c0, b64Val c1 with
    | some v0, some v1 =>
      if c2 = '=' then
        if c3 = '=' ∧ rest = [] then some [v0 * 4 + v1 / 16] else none
      else
        match b64Val c2 with
        | some v2 =>
          if c3 = '=' then
            if rest = [] then some [v0 * 4 + v1 / 16, v1 % 16 * 16 + v2 / 4] else none
          else
            match b64Val c3 with
            | some v3 =>
              (decodeB64 rest).map
                (fun bs => (v0 * 4 + v1 / 16) :: (v1 % 16 * 16 + v2 / 4) :: (v2 % 4 * 64 + v3) :: bs)
            | none => none
        | none => none
    | _, _ => none
  | _ => none

/-- String-level base64 encoding (`naclUtil.encodeBase64`). -/
def encodeBase64 (bs : List Nat) : String := String.mk (encodeB64 bs)

/-- String-level base64 decoding (`naclUtil.decodeBase64`); `none` models
its thrown `TypeError`. -/
def decodeBase64 (s : String) : Option (List Nat) := decodeB64 s.data

/-! ## The ed25519 model (tweetnacl) -/

/-- The prime order of the ed25519 base-point subgroup. -/
def L : Nat := 2 ^ 252 + 27742317777372353535851937790883648493

instance : NeZero L := ⟨by unfold L; positivity⟩

/-- External cryptographic primitives of `crypto` and `tweetnacl`, which are
library code, not code of this repository.  `sha256` is node's
`crypto.createHash('sha256')`; `Hsecret seed` is the clamped secret scalar
`clamp(sha512(seed)[0..31])` of a 32-byte seed; `Hnonce seed m` is the
deterministic nonce `sha512(sha512(seed)[32..63] ‖ m) mod L`; `Hchal R A m`
is the challenge `sha512(enc(R) ‖ enc(A) ‖ m) mod L`.  All theorems
quantify over these, so they hold for the concrete sha-based instances. -/
structure CryptoPrims where
  sha256 : String → List Nat
  Hsecret : Nat → ZMod L
  Hnonce : Nat → String → ZMod L
  Hchal : List Nat → List Nat → String → ZMod L

/-- Encoding of a curve point (discrete-log model) into its 32-byte wire
form. -/
def pointToBytes (P : ZMod L) : List Nat := natToBytesLE 32 P.val

/-- tweetnacl's `unpackneg`: decoding of a 32-byte point encoding; in the
discrete-log model a value `≥ L` stands for an encoding that is not a
valid point and is rejected. -/
def bytesToPoint (bs : List Nat) : Option (ZMod L) :=
  if bytesToNatLE bs < L then some ((bytesToNatLE bs : Nat) : ZMod L) else none

/-- `generateKeyPair` from `bap-server/crypto/sign.js`: `nacl.sign.keyPair()`
draws a random 32-byte seed (here the explicit argument `seed < 2^256`),
derives the secret scalar `a = Hsecret seed`, the public key `A = a·B`,
and the 64-byte secret key `seed ‖ enc(A)`; both halves are returned
base64-encoded. -/
def generateKeyPair (P : CryptoPrims) (seed : Nat) : String × String :=
  let a := P.Hsecret seed
  let pkBytes := pointToBytes a
  let skBytes := natToBytesLE 32 seed ++ pkBytes
  (encodeBase64 pkBytes, encodeBase64 skBytes)

/-- `sign` from `bap-server/crypto/sign.js`: decode the base64 secret key
and produce the detached ed25519 signature `enc(R) ‖ enc(S)` with
`R = r·B`, `S = r + Hchal(enc R, pk, m)·a`.  `none` embeds a thrown
exception (`sign` has no try/catch): invalid base64 or a secret key that
is not 64 bytes. -/
def sign (message : String) (privateKeyBase64 : String) (P : CryptoPrims) : Option String :=
  match decodeBase64 privateKeyBase64 with
  | none => none
  | some sk =>
    if sk.length = 64 then
      let seed := bytesToNatLE (sk.take 32)
      let pkBytes := sk.drop 32
      let a := P.Hsecret seed
      let r := P.Hnonce seed message
      let Rb := pointToBytes r
      let h := P.Hchal Rb pkBytes message
      let S := r + h * a
      some (encodeBase64 (Rb ++ natToBytesLE 32 S.val))
    else none

/-- The body of `verify` from `bap-server/crypto/verify.js` before its
`try/catch`: `Except.error` embeds a thrown exception (invalid base64
from `decodeBase64`, or tweetnacl's size checks), `Except.ok` a returned
boolean.  tweetnacl's `crypto_sign_open` rejects an invalid public-key
encoding with result `false`, decodes `S` without a range check, computes
`R' = S·B − h·A` and compares its packed form with the first 32 signature
bytes. -/
def verifyChecked (message signatureBase64 publicKeyBase64 : String) (P : CryptoPrims) :
    Except String Bool :=
  match decodeBase64 publicKeyBase64 with
  | none => Except.error "invalid encoding"
  | some pk =>
    match decodeBase64 signatureBase64 with
    | none => Except.error "invalid encoding"
    | some sig =>
      if pk.length ≠ 32 then Except.error "bad public key size"
      else if sig.length ≠ 64 then Except.error "bad signature size"
      else
        match bytesToPoint pk with
        | none => Except.ok false
        | some A =>
          let Rb := sig.take 32
          let h := P.Hchal Rb pk message
          let S : ZMod L := (bytesToNatLE (sig.drop 32) : Nat)
          Except.ok (decide (pointToBytes (S * 1 - h * A) = Rb))

/-- `verify` from `bap-server/crypto/verify.js`: the `try/catch` turns any
thrown exception into the return value `false`. -/
def verify (message signatureBase64 publicKeyBase64 : String) (P : CryptoPrims) : Bool :=
  match verifyChecked message signatureBase64 publicKeyBase64 P with
  | Except.ok b => b
  | Except.error _ => false

/-! ## JSON values, `JSON.stringify` and `JSON.parse`

The request bodies the BAP exchanges are JSON.  `JVal` is the JSON value
model (numbers restricted to integers, string contents without escape
sequences — the fragment exercised by the protocol bodies considered
here); `jsonStringify` is JS `JSON.stringify` (compact: no whitespace,
keys in object order) and `jsonParse` is JS `JSON.parse` on this
fragment. -/

inductive JVal where
  | jnull : JVal
  | jbool : Bool → JVal
  | jnum : Int → JVal
  | jstr : String → JVal
  | jarr : List JVal → JVal
  | jobj : List (String × JVal) → JVal

/-- JSON string quoting as `JSON.stringify` performs it (escaping quote
and backslash; other characters taken verbatim). -/
def jsonQuote (s : String) : String :=
  "\"" ++ String.mk (s.data.flatMap fun c =>
    if c = '"' then ['\\', '"'] else if c = '\\' then ['\\', '\\'] else [c]) ++ "\""

mutual

/-- JS `JSON.stringify` (compact output, object keys in stored order). -/
def jsonStringify : JVal → String
  | JVal.jnull => "null"
  | JVal.jbool true => "true"
  | JVal.jbool false => "false"
  | JVal.jnum n => toString n
  | JVal.jstr s => jsonQuote s
  | JVal.jarr xs => "[" ++ jsonStringifyList xs ++ "]"
  | JVal.jobj ps => "\x7b" ++ jsonStringifyProps ps ++ "\x7d"

/-- Comma-joined serialization of array elements. -/
def jsonStringifyList : List JVal → String
  | [] => ""
  | [x] => jsonStringify x
  | x :: xs => jsonStringify x ++ "," ++ jsonStringifyList xs

/-- Comma-joined serialization of object properties. -/
def jsonStringifyProps : List (String × JVal) → String
  | [] => ""
  | [(k, v)] => jsonQuote k ++ ":" ++ jsonStringify v
  | (k, v) :: ps => jsonQuote k ++ ":" ++ jsonStringify v ++ "," ++ jsonStringifyProps ps

end

/-- JSON whitespace. -/
def jsonWs (c : Char) : Bool := c = ' ' ∨ c = '\t' ∨ c = '\n' ∨ c = '\r'

/-- Parse a JSON string body (after the opening quote) without escape
sequences, returning contents and remainder. -/
def jsonParseStr : List Char → Option (List Char × List Char)
  | [] => none
  | c :: cs =>
    if c = '"' then some ([], cs)
    else if c = '\\' then none
    else (jsonParseStr cs).map fun p => (c :: p.1, p.2)

/-- Parse an unsigned decimal number, returning value and remainder. -/
def jsonParseNat (cs : List Char) : Option (Nat × List Char) :=
  let ds := cs.takeWhile Char.isDigit
  if ds.isEmpty then none
  else some (ds.foldl (fun acc c => acc * 10 + (c.toNat - '0'.toNat)) 0, cs.dropWhile Char.isDigit)

mutual

/-- JS `JSON.parse` on the fragment of `JVal`: value parser with explicit
fuel (any fuel of at least the input length suffices). -/
def jsonParseVal : Nat → List Char → Option (JVal × List Char)
  | 0, _ => none
  | fuel + 1, cs =>
    match cs.dropWhile jsonWs with
    | [] => none
    | c :: rest =>
      if c = 'n' then
        match rest with
        | 'u' :: 'l' :: 'l' :: rest' => some (JVal.jnull, rest')
        | _ => none
      else if c = 't' then
        match rest with
        | 'r' :: 'u' :: 'e' :: rest' => some (JVal.jbool true, rest')
        | _ => none
      else if c = 'f' then
        match rest with
        | 'a' :: 'l' :: 's' :: 'e' :: rest' => some (JVal.jbool false, rest')
        | _ => none
      else if c = '-' then
        (jsonParseNat rest).map fun p => (JVal.jnum (-(p.1 : Int)), p.2)
      else if c.isDigit then
        (jsonParseNat (c :: rest)).map fun p => (JVal.jnum (p.1 : Int), p.2)
      else if c = '"' then
        (jsonParseStr rest).map fun p => (JVal.jstr (String.mk p.1), p.2)
      else if c = '[' then
        match rest.dropWhile jsonWs with
        | ']' :: rest' => some (JVal.jarr [], rest')
        | _ => (jsonParseItems fuel rest).map fun p => (JVal.jarr p.1, p.2)
      else if c = '\x7b' then
        match rest.dropWhile jsonWs with
        | '\x7d' :: rest' => some (JVal.jobj [], rest')
        | _ => (jsonParseProps fuel rest).map fun p => (JVal.jobj p.1, p.2)
      else none

/-- Comma-separated array items up to the closing bracket. -/
def jsonParseItems : Nat → List Char → Option (List JVal × List Char)
  | 0, _ => none
  | fuel + 1, cs =>
    match jsonParseVal fuel cs with
    | none => none
    | some (v, rest) =>
      match rest.dropWhile jsonWs with
      | ']' :: rest' => some ([v], rest')
      | ',' :: rest' => (jsonParseItems fuel rest').map fun p => (v :: p.1, p.2)
      | _ => none

/-- Comma-separated object properties up to the closing brace. -/
def jsonParseProps : Nat → List Char → Option (List (String × JVal) × List Char)
  | 0, _ => none
  | fuel + 1, cs =>
    match cs.dropWhile jsonWs with
    | '"' :: rest =>
      match jsonParseStr rest with
      | none => none
      | some (k, rest1) =>
        match rest1.dropWhile jsonWs with
        | ':' :: rest2 =>
          match jsonParseVal fuel rest2 with
          | none => none
          | some (v, rest3) =>
            match rest3.dropWhile jsonWs with
            | '\x7d' :: rest' => some ([(String.mk k, v)], rest')
            | ',' :: rest' => (jsonParseProps fuel rest').map fun p => ((String.mk k, v) :: p.1, p.2)
            | _ => none
        | _ => none
    | _ => none

end

/-- JS `JSON.parse` of a whole string: the parsed value, `none` (a thrown
`SyntaxError`) if the input is not a single JSON value with only trailing
whitespace. -/
def jsonParse (s : String) : Option JVal :=
  match jsonParseVal (s.data.length + 1) s.data with
  | some (v, rest) => if (rest.dropWhile jsonWs).isEmpty then some v else none
  | none => none

/-! ## JS helpers: falsiness, `parseInt`, number rendering -/

/-- JS falsiness of an optional string (`undefined` or the empty string). -/
def jsFalsy : Option String → Bool
  | none => true
  | some s => s.isEmpty

/-- JS `a || b` for optional strings with a default. -/
def jsOrDefault (v : Option String) (dflt : String) : String :=
  match v with
  | some s => if s.isEmpty then dflt else s
  | none => dflt

/-- JS `parseInt(s, 10)`: skip leading whitespace, optional sign, then the
longest digit prefix; `none` is `NaN`. -/
def parseIntJS (s : String) : Option Int :=
  let cs := s.data.dropWhile jsonWs
  let digits : List Char → Option Nat := fun ds =>
    let ds' := ds.takeWhile Char.isDigit
    if ds'.isEmpty then none
    else some (ds'.foldl (fun acc c => acc * 10 + (c.toNat - '0'.toNat)) 0)
  match cs with
  | '-' :: rest => (digits rest).map fun n => -(n : Int)
  | '+' :: rest => (digits rest).map fun n => (n : Int)
  | _ => (digits cs).map fun n => (n : Int)

/-- A JS number that may be `NaN` (`none`). -/
abbrev JsNum : Type := Option Int

/-- JS template interpolation of a possibly-`NaN` number. -/
def jsNumToString (n : JsNum) : String :=
  match n with
  | some v => toString v
  | none => "NaN"

/-- JS `now > e` where `e` may be `NaN`: every comparison with `NaN` is
false. -/
def jsGtNum (now : Int) (e : JsNum) : Bool :=
  match e with
  | some v => now > v
  | none => false

/-! ## Authorization header codec

`parseAuthorizationHeader` (verify.js) strips a literal `Signature `
prefix when present and repeatedly applies the sticky regex
`/(\w+)="([^"]+)"/g`.  The scanner below is that regex loop: at each
position an anchored match takes the maximal nonempty `\w+` run, then
`="`, then the maximal nonempty run without `"`, then `"`; on failure the
scan advances one character (no backtracking is lost: the runs are
maximal and the boundary characters are outside the classes). -/

/-- JS `\w`: ASCII letters, digits and underscore. -/
def isWordChar (c : Char) : Bool := c.isAlphanum || c = '_'

/-- Anchored match of `(\w+)="([^"]+)"` at the head of the input; returns
the two captures and the remainder after the match. -/
def tryMatch (cs : List Char) : Option (List Char × List Char × List Char) :=
  match cs.takeWhile isWordChar, cs.dropWhile isWordChar with
  | a :: tw, '=' :: '"' :: r2 =>
    match r2.takeWhile (fun c => ¬ c = '"'), r2.dropWhile (fun c => ¬ c = '"') with
    | b :: tv, '"' :: r4 => some (a :: tw, b :: tv, r4)
    | _, _ => none
  | _, _ => none

/-- The `while ((match = regex.exec(headerContent)) !== null)` loop of
`parseAuthorizationHeader`: collect all matches left to right.  Every
loop iteration either consumes a whole match or advances one character,
so a fuel of the input length (spent one unit per iteration, see
`parseScan`) is enough. -/
def scanAux : Nat → List Char → List (List Char × List Char)
  | 0, _ => []
  | fuel + 1, cs =>
    match tryMatch cs with
    | some (w, v, r) => (w, v) :: scanAux fuel r
    | none =>
      match cs with
      | [] => []
      | _ :: t => scanAux fuel t

/-- The regex scan of a whole header content. -/
def parseScan (cs : List Char) : List (List Char × List Char) :=
  scanAux cs.length cs

/-- One serialized `key="value"` field followed by the rest of the
header content; the building block of the serialized header shape. -/
def fieldChunk (key v : String) (rest : List Char) : List Char :=
  key.data ++ '=' :: '"' :: (v.data ++ '"' :: rest)

/-- `parseAuthorizationHeader` from `bap-server/crypto/verify.js`: strip a
leading `Signature ` if present, then collect every `key="value"` match
of the token grammar, in order. -/
def parseAuthorizationHeader (header : String) : List (String × String) :=
  let cs := header.data
  let content :=
    if ("Signature ".data).isPrefixOf cs then cs.drop ("Signature ".data).length else cs
  (parseScan content).map fun p => (String.mk p.1, String.mk p.2)

/-- JS object access `params[k]` for the params object the parse loop
fills: the last assignment to a key wins. -/
def objGet (ps : List (String × String)) (k : String) : Option String :=
  ps.foldl (fun acc p => if p.1 = k then some p.2 else acc) none

/-- `createDigest` from `bap-server/crypto/sign.js`: sha256 of the body
string, base64-encoded, under a `BLAKE-512=` label. -/
def createDigest (P : CryptoPrims) (body : String) : String :=
  "BLAKE-512=" ++ encodeBase64 (P.sha256 body)

/-- `createSigningString` from `bap-server/crypto/sign.js`: the three
labeled lines, newline-joined.  `created`/`expires` flow in as JS numbers
that may be `NaN` when the verifier parsed them with `parseInt`. -/
def createSigningString (created expires : JsNum) (digest : String) : String :=
  "(created): " ++ jsNumToString created ++ "\n(expires): " ++ jsNumToString expires ++
    "\ndigest: " ++ digest

/-- The header template string literal of `createAuthorizationHeader`:
fixed field order, all values double-quoted. -/
def authHeaderString (keyId algorithm created expires headers signature : String) : String :=
  "Signature keyId=\"" ++ keyId ++ "\",algorithm=\"" ++ algorithm ++ "\",created=\"" ++
    created ++ "\",expires=\"" ++ expires ++ "\",headers=\"" ++ headers ++ "\",signature=\"" ++
    signature ++ "\""

/-- Process environment slice read by the crypto module. -/
structure Env where
  devMode : Option String
  publicKey : Option String
  privateKey : Option String
  subscriberId : Option String
  uniqueKeyId : Option String

/-- `createAuthorizationHeader` from `bap-server/crypto/sign.js` at time
`now`: digest the body (a string is used verbatim, an object is
`JSON.stringify`ed), build the signing string for `[now, now + 30]`, sign
it, and render the header template.  When `PRIVATE_KEY` is unset the
source generates an ephemeral key pair, writes it into `process.env` and
retries once; `freshSeed` is the randomness of that fallback.  `none`
embeds a thrown exception from `sign`. -/
def createAuthorizationHeader (P : CryptoPrims) (env : Env) (freshSeed : Nat) (now : Int)
    (body : String ⊕ JVal) : Option String :=
  let subscriberId := jsOrDefault env.subscriberId "ondc-logistics-bap.example.com"
  let uniqueKeyId := jsOrDefault env.uniqueKeyId "k1"
  let privateKey :=
    match env.privateKey with
    | some k => if k.isEmpty then (generateKeyPair P freshSeed).2 else k
    | none => (generateKeyPair P freshSeed).2
  let bodyString :=
    match body with
    | Sum.inl s => s
    | Sum.inr v => jsonStringify v
  let digest := createDigest P bodyString
  let created := now
  let expires := now + 30
  let signingString := createSigningString (some created) (some expires) digest
  (sign signingString privateKey P).map fun signature =>
    authHeaderString (subscriberId ++ "|" ++ uniqueKeyId ++ "|ed25519") "ed25519"
      (toString created) (toString expires) "(created) (expires) digest" signature

/-- Result record of `verifyAuthorizationHeader`. -/
structure VerifyResult where
  valid : Bool
  error : Option String
  deriving DecidableEq

/-- `verifyAuthorizationHeader` from `bap-server/crypto/verify.js`, for a
request with Authorization header `authorization` (absent = `none`) whose
parsed JSON body is `body`, evaluated when `Math.floor(Date.now()/1000)`
is `now`.  In `DEV_MODE === 'true'` verification is skipped entirely;
otherwise: missing header, malformed params, expiry (`now >
parseInt(params.expires, 10)`), missing `PUBLIC_KEY`, then signature
verification of the recomputed signing string over
`JSON.stringify(req.body)`. -/
def verifyAuthorizationHeader (P : CryptoPrims) (env : Env) (authorization : Option String)
    (body : JVal) (now : Int) : VerifyResult :=
  if env.devMode = some "true" then ⟨true, none⟩
  else
    match authorization with
    | none => ⟨false, some "Missing Authorization header"⟩
    | some authHeader =>
      let params := parseAuthorizationHeader authHeader
      if jsFalsy (objGet params "keyId") ∨ jsFalsy (objGet params "signature") ∨
          jsFalsy (objGet params "created") ∨ jsFalsy (objGet params "expires") then
        ⟨false, some "Malformed Authorization header"⟩
      else
        let expiresNum := parseIntJS ((objGet params "expires").getD "")
        if jsGtNum now expiresNum then ⟨false, some "Authorization header expired"⟩
        else if jsFalsy env.publicKey then
          ⟨false, some "No public key configured for verification"⟩
        else
          let publicKey := env.publicKey.getD ""
          let bodyString := jsonStringify body
          let digest := createDigest P bodyString
          let signingString :=
            createSigningString (parseIntJS ((objGet params "created").getD "")) expiresNum digest
          let isValid := verify signingString ((objGet params "signature").getD "") publicKey P
          ⟨isValid, if isValid then none else some "Invalid signature"⟩

/-- The byte string over which the inbound verifier computes the body
digest, as a function of the bytes transmitted on the wire: express
parses the body (`req.body`) and `verifyAuthorizationHeader` line 182
re-serializes it with `JSON.stringify(req.body)`. -/
def verifierDigestInput (wire : String) : Option String :=
  (jsonParse wire).map jsonStringify

/-! ## Transaction correlation store (`bap-server/store.js`)

The store is a single JS object `store.transactions` keyed by transaction
id; we embed it as an association list in insertion order (the ids the
code uses are UUID strings, for which JS object key order is insertion
order).  `new Date().toISOString()` enters as the explicit `now`
argument.  Payloads are the opaque JSON bodies. -/

/-- One transaction record, the fields of the object literal in
`createTransaction`. -/
structure Txn where
  transactionId : String
  messageId : String
  status : String
  search : JVal
  catalogs : List JVal
  selections : List JVal
  initResults : List JVal
  statusResults : List JVal
  errors : List JVal
  createdAt : String
  updatedAt : String

/-- The `store.transactions` object. -/
abbrev Store : Type := List (String × Txn)

/-- JS object assignment `store.transactions[id] = txn`: replace in place
when the key exists, append otherwise. -/
def objSet (ps : Store) (k : String) (v : Txn) : Store :=
  if ps.any (fun p => p.1 = k) then ps.map (fun p => if p.1 = k then (k, v) else p)
  else ps ++ [(k, v)]

/-- JS object lookup `store.transactions[id] || null`. -/
def objFind (ps : Store) (k : String) : Option Txn :=
  (ps.find? (fun p => p.1 = k)).map (fun p => p.2)

/-- `createTransaction` from `bap-server/store.js`. -/
def createTransaction (now : String) (st : Store) (transactionId messageId : String)
    (searchPayload : JVal) : Txn × Store :=
  let txn : Txn :=
    { transactionId := transactionId
      messageId := messageId
      status := "searching"
      search := searchPayload
      catalogs := []
      selections := []
      initResults := []
      statusResults := []
      errors := []
      createdAt := now
      updatedAt := now }
  (txn, objSet st transactionId txn)

/-- `getTransaction` from `bap-server/store.js`. -/
def getTransaction (st : Store) (transactionId : String) : Option Txn :=
  objFind st transactionId

/-- `addCatalogData` from `bap-server/store.js`: push onto `catalogs`, set
status `results_ready`; `none` when the transaction is unknown. -/
def addCatalogData (now : String) (st : Store) (transactionId : String) (catalogData : JVal) :
    Option Txn × Store :=
  match objFind st transactionId with
  | none => (none, st)
  | some txn =>
    let txn' := { txn with catalogs := txn.catalogs ++ [catalogData],
                           status := "results_ready", updatedAt := now }
    (some txn', objSet st transactionId txn')

/-- `addSelectData` from `bap-server/store.js`. -/
def addSelectData (now : String) (st : Store) (transactionId : String) (selectData : JVal) :
    Option Txn × Store :=
  match objFind st transactionId with
  | none => (none, st)
  | some txn =>
    let txn' := { txn with selections := txn.selections ++ [selectData],
                           status := "selected", updatedAt := now }
    (some txn', objSet st transactionId txn')

/-- `addInitData` from `bap-server/store.js`. -/
def addInitData (now : String) (st : Store) (transactionId : String) (initData : JVal) :
    Option Txn × Store :=
  match objFind st transactionId with
  | none => (none, st)
  | some txn =>
    let txn' := { txn with initResults := txn.initResults ++ [initData],
                           status := "initialized", updatedAt := now }
    (some txn', objSet st transactionId txn')

/-- `addStatusData` from `bap-server/store.js`: append only, no status
change. -/
def addStatusData (now : String) (st : Store) (transactionId : String) (statusData : JVal) :
    Option Txn × Store :=
  match objFind st transactionId with
  | none => (none, st)
  | some txn =>
    let txn' := { txn with statusResults := txn.statusResults ++ [statusData], updatedAt := now }
    (some txn', objSet st transactionId txn')

/-- `addErrorData` from `bap-server/store.js`. -/
def addErrorData (now : String) (st : Store) (transactionId : String) (errorData : JVal) :
    Option Txn × Store :=
  match objFind st transactionId with
  | none => (none, st)
  | some txn =>
    let txn' := { txn with errors := txn.errors ++ [errorData],
                           status := "error", updatedAt := now }
    (some txn', objSet st transactionId txn')

/-- `getAllTransactionIds` from `bap-server/store.js`. -/
def getAllTransactionIds (st : Store) : List String := st.map (fun p => p.1)

/-- `clearAll` from `bap-server/store.js`. -/
def clearAll (_st : Store) : Store := []

/-- The names exported by `module.exports` of `bap-server/store.js`,
verbatim from the source. -/
def storeModuleExports : List String :=
  ["store", "createTransaction", "getTransaction", "addCatalogData", "addSelectData",
   "addInitData", "addStatusData", "addErrorData", "getAllTransactionIds", "clearAll"]

/-- Modelled from the spec (§6): the ACK/NACK response bodies built by
`buildAckResponse`/`buildNackResponse` of `bap-server/helpers.js`, a file
that is not under `src/`; only the code (`code`, `message`) pair of a
NACK is relevant to the claims. -/
inductive BecknReply where
  | ackReply : BecknReply
  | nackReply : String → String → BecknReply
  deriving DecidableEq

/-- The `POST /beckn/on_confirm` route handler body from
`bap-server/routes/on_confirm.js` (after its auth/context middleware):
`const txn = store.addConfirmData ? store.addConfirmData(...) : null;`.
`addConfirmData` is not among `storeModuleExports`, so the property
access yields `undefined` and the conditional always takes the `null`
branch, after which the handler NACKs with code 404. -/
def onConfirmHandler (st : Store) (transactionId : Option String) (_payload : JVal) :
    BecknReply × Store :=
  match transactionId with
  | none => (BecknReply.nackReply "400" "Missing transaction_id", st)
  | some _ =>
    let txn : Option Txn := if "addConfirmData" ∈ storeModuleExports then none else none
    match txn with
    | some _ => (BecknReply.ackReply, st)
    | none => (BecknReply.nackReply "404" "Transaction not found or server error", st)

/-- The `POST /beckn/on_cancel` route handler body from
`bap-server/routes/on_cancel.js`, with the analogous
`store.addCancelData ? ... : null` conditional on a property that the
store module does not export. -/
def onCancelHandler (st : Store) (transactionId : Option String) (_payload : JVal) :
    BecknReply × Store :=
  match transactionId with
  | none => (BecknReply.nackReply "400" "Missing transaction_id", st)
  | some _ =>
    let txn : Option Txn := if "addCancelData" ∈ storeModuleExports then none else none
    match txn with
    | some _ => (BecknReply.ackReply, st)
    | none => (BecknReply.nackReply "404" "Transaction not found or server error", st)

/-! ## Challenge decryptor (subscription handshake) -/

/-- External symmetric primitives of the handshake: `Hshared` is the
key-derivation from the Diffie-Hellman shared point to the 32-byte
AES-256 key (`nacl.box.before`); `aesEnc`/`aesDec` are AES-256-ECB
encryption and decryption (no IV), with `aesDec` failing (`none`) on bad
padding or block misalignment.  The X25519 group is modelled by discrete
logs exactly as the signing group. -/
structure EncPrims where
  Hshared : ZMod L → List Nat
  aesEnc : List Nat → String → List Nat
  aesDec : List Nat → List Nat → Option String

/-- Modelled from the spec (§4.3) and `scripts/test-crypto.js`:
`generateEncryptionKeyPair` of the bap-server crypto module, whose file
is not under `src/` (only its callers `routes/select.js`,
`scripts/test-crypto.js` and `scripts/generate-keys.js` are): an X25519
key pair, base64-encoded; in the discrete-log model the secret scalar is
`s` and the public point `s·G`. -/
def generateEncryptionKeyPair (s : ZMod L) : String × String :=
  (encodeBase64 (pointToBytes (s * 1)), encodeBase64 (natToBytesLE 32 s.val))

/-- Modelled from the spec (§4.3): `decryptChallenge(encryptedBase64,
counterpartyPublicKey, ownPrivateKey)` of the bap-server crypto module,
whose file is not under `src/`: decode the three base64 inputs, derive
the Diffie-Hellman shared secret from the counterparty's public point
and the own private scalar, use it as the AES-256-ECB key, and return
the decrypted UTF-8 string; every failure (malformed base64, invalid
point, cipher failure) surfaces as the explicit failure value `none`,
never as an exception. -/
def decryptChallenge (E : EncPrims) (encryptedBase64 counterpartyPublicKeyB64 ownPrivateKeyB64 :
    String) : Option String :=
  match decodeBase64 encryptedBase64, decodeBase64 counterpartyPublicKeyB64,
      decodeBase64 ownPrivateKeyB64 with
  | some ct, some pkBytes, some skBytes =>
    match bytesToPoint pkBytes with
    | none => none
    | some pubPoint =>
      let ownScalar : ZMod L := (bytesToNatLE skBytes : Nat)
      let sharedKey := E.Hshared (ownScalar * pubPoint)
      E.aesDec sharedKey ct
  | _, _, _ => none

/-- Modelled from the spec (§4.3) and `scripts/test-crypto.js` lines
18-28: the registry side of the handshake produces the challenge
ciphertext by AES-256-ECB encryption under the shared secret derived
from its own private scalar and the node's public key. -/
def encryptChallengeAsRegistry (E : EncPrims) (registryScalar : ZMod L)
    (nodePublicKeyB64 : String) (challenge : String) : Option String :=
  match decodeBase64 nodePublicKeyB64 with
  | none => none
  | some pkBytes =>
    match bytesToPoint pkBytes with
    | none => none
    | some nodePoint =>
      some (encodeBase64 (E.aesEnc (E.Hshared (registryScalar * nodePoint)) challenge))

/-- A concrete instantiation of the external hash primitives, used to
evaluate the embedding on concrete inputs. -/
def testPrims : CryptoPrims where
  sha256 := fun s => List.replicate 32 (s.length % 256)
  Hsecret := fun n => (n : ZMod L)
  Hnonce := fun n m => (n + m.length : ZMod L)
  Hchal := fun R A m => (bytesToNatLE R + bytesToNatLE A + m.length : ZMod L)

/-- A concrete instantiation of the external symmetric primitives, with
the block-cipher round trip holding by construction, used to evaluate
the embedding on concrete inputs. -/
def testEncPrims : EncPrims where
  Hshared := fun p => natToBytesLE 32 p.val
  aesEnc := fun k m => k ++ m.data.map Char.toNat
  aesDec := fun k c =>
    if c.take 32 = k then some (String.mk ((c.drop 32).map Char.ofNat)) else none

/-! # Theorems

First the supporting lemmas about the byte and base64 codecs, then the
claim theorems. -/

theorem natToBytesLE_length (len n : Nat) : (natToBytesLE len n).length = len := by
  induction len generalizing n with
  | zero => rfl
  | succ l ih => simp [natToBytesLE, ih]

theorem natToBytesLE_mem_lt (len n : Nat) : ∀ b ∈ natToBytesLE len n, b < 256 := by
  induction len generalizing n with
  | zero => simp [natToBytesLE]
  | succ l ih =>
    intro b hb
    rcases hb with _ | h
    · omega
    · exact ih (n / 256) b (by assumption)

theorem bytesToNatLE_natToBytesLE (len n : Nat) (h : n < 256 ^ len) :
    bytesToNatLE (natToBytesLE len n) = n := by
  induction len generalizing n with
  | zero =>
    simp only [pow_zero, Nat.lt_one_iff] at h
    simp [natToBytesLE, bytesToNatLE, h]
  | succ l ih =>
    have hdiv : n / 256 < 256 ^ l := by
      rw [Nat.div_lt_iff_lt_mul (by norm_num)]
      calc n < 256 ^ (l + 1) := h
        _ = 256 ^ l * 256 := by ring
    simp only [natToBytesLE, bytesToNatLE, ih (n / 256) hdiv]
    omega

theorem bytesToNatLE_lt (bs : List Nat) (h : ∀ b ∈ bs, b < 256) :
    bytesToNatLE bs < 256 ^ bs.length := by
  induction bs with
  | nil => simp [bytesToNatLE]
  | cons b bs ih =>
    have hb : b < 256 := h b (by simp)
    have ht := ih (fun x hx => h x (by simp [hx]))
    simp only [bytesToNatLE, List.length_cons, pow_succ]
    calc b + 256 * bytesToNatLE bs < 256 + 256 * bytesToNatLE bs := by omega
      _ ≤ 256 * 256 ^ bs.length := by omega
      _ = 256 ^ bs.length * 256 := by ring

theorem b64Val_b64Char : ∀ n < 64, b64Val (b64Char n) = some n := by decide

theorem b64Char_ne_pad : ∀ n < 64, b64Char n ≠ '=' := by decide

theorem decodeB64_encodeB64 :
    ∀ bs : List Nat, (∀ b ∈ bs, b < 256) → decodeB64 (encodeB64 bs) = some bs := by
  intro bs
  induction bs using encodeB64.induct with
  | case1 => intro _; rfl
  | case2 b0 =>
    intro h
    have hb0 : b0 < 256 := h b0 (by simp)
    simp only [encodeB64, decodeB64,
      b64Val_b64Char (b0 / 4) (by omega), b64Val_b64Char (b0 % 4 * 16) (by omega)]
    simp only [if_pos rfl, and_self, reduceIte]
    simp only [Option.some.injEq, List.cons.injEq, and_true]
    omega
  | case3 b0 b1 =>
    intro h
    have hb0 : b0 < 256 := h b0 (by simp)
    have hb1 : b1 < 256 := h b1 (by simp)
    simp only [encodeB64, decodeB64, b64Val_b64Char (b0 / 4) (by omega),
      b64Val_b64Char (b0 % 4 * 16 + b1 / 16) (by omega), b64Val_b64Char (b1 % 16 * 4) (by omega),
      if_neg (b64Char_ne_pad (b1 % 16 * 4) (by omega)), if_pos rfl, reduceIte]
    simp only [Option.some.injEq, List.cons.injEq, and_true]
    omega
  | case4 b0 b1 b2 rest ih =>
    intro h
    have hb0 : b0 < 256 := h b0 (by simp)
    have hb1 : b1 < 256 := h b1 (by simp)
    have hb2 : b2 < 256 := h b2 (by simp)
    have hrest : ∀ b ∈ rest, b < 256 := fun b hb => h b (by simp [hb])
    simp only [encodeB64, decodeB64, b64Val_b64Char (b0 / 4) (by omega),
      b64Val_b64Char (b0 % 4 * 16 + b1 / 16) (by omega),
      b64Val_b64Char (b1 % 16 * 4 + b2 / 64) (by omega), b64Val_b64Char (b2 % 64) (by omega),
      if_neg (b64Char_ne_pad (b1 % 16 * 4 + b2 / 64) (by omega)),
      if_neg (b64Char_ne_pad (b2 % 64) (by omega)), ih hrest, Option.map_some']
    simp only [Option.some.injEq, List.cons.injEq, and_true]
    omega

theorem decodeBase64_encodeBase64 (bs : List Nat) (h : ∀ b ∈ bs, b < 256) :
    decodeBase64 (encodeBase64 bs) = some bs :=
  decodeB64_encodeB64 bs h

theorem L_lt_bytes : L < 256 ^ 32 := by norm_num [L]

theorem bytesToPoint_pointToBytes (A : ZMod L) : bytesToPoint (pointToBytes A) = some A := by
  unfold bytesToPoint pointToBytes
  rw [bytesToNatLE_natToBytesLE 32 A.val (lt_trans (ZMod.val_lt A) L_lt_bytes)]
  rw [if_pos (ZMod.val_lt A)]
  exact congrArg some (ZMod.natCast_rightInverse A)

theorem pointToBytes_injective : Function.Injective pointToBytes := by
  intro x y hxy
  have hx := bytesToPoint_pointToBytes x
  have hy := bytesToPoint_pointToBytes y
  rw [hxy, hy] at hx
  exact (Option.some_injective _ hx).symm

theorem pointToBytes_length (A : ZMod L) : (pointToBytes A).length = 32 :=
  natToBytesLE_length 32 A.val

theorem pointToBytes_mem_lt (A : ZMod L) : ∀ b ∈ pointToBytes A, b < 256 :=
  natToBytesLE_mem_lt 32 A.val

theorem take_32_append (l r : List Nat) (hl : l.length = 32) : (l ++ r).take 32 = l := by
  rw [← hl]
  exact List.take_left l r

theorem drop_32_append (l r : List Nat) (hl : l.length = 32) : (l ++ r).drop 32 = r := by
  rw [← hl]
  exact List.drop_left l r

theorem pow_256_32 : (256 : Nat) ^ 32 = 2 ^ 256 := by norm_num

/-- What `sign` produces on the secret key generated from `seed`: the
encoded `R ‖ S` with the standard ed25519 values. -/
theorem sign_on_generated_key (P : CryptoPrims) (seed : Nat) (message : String)
    (hseed : seed < 2 ^ 256) :
    sign message (generateKeyPair P seed).2 P =
      some (encodeBase64 (pointToBytes (P.Hnonce seed message) ++
        natToBytesLE 32 (P.Hnonce seed message +
          P.Hchal (pointToBytes (P.Hnonce seed message)) (pointToBytes (P.Hsecret seed)) message *
            P.Hsecret seed).val)) := by
  have hmem : ∀ b ∈ natToBytesLE 32 seed ++ pointToBytes (P.Hsecret seed), b < 256 := by
    intro b hb
    rcases List.mem_append.mp hb with h | h
    · exact natToBytesLE_mem_lt 32 seed b h
    · exact pointToBytes_mem_lt _ b h
  have hlen : (natToBytesLE 32 seed ++ pointToBytes (P.Hsecret seed)).length = 64 := by
    simp [List.length_append, natToBytesLE_length, pointToBytes_length]
  have htake : (natToBytesLE 32 seed ++ pointToBytes (P.Hsecret seed)).take 32 =
      natToBytesLE 32 seed := take_32_append _ _ (natToBytesLE_length 32 seed)
  have hdrop : (natToBytesLE 32 seed ++ pointToBytes (P.Hsecret seed)).drop 32 =
      pointToBytes (P.Hsecret seed) := drop_32_append _ _ (natToBytesLE_length 32 seed)
  have hseed' : bytesToNatLE (natToBytesLE 32 seed) = seed :=
    bytesToNatLE_natToBytesLE 32 seed (by rw [pow_256_32]; exact hseed)
  simp only [generateKeyPair, sign, decodeBase64_encodeBase64 _ hmem, hlen, htake, hdrop, hseed']
  simp

/-- C1: `nacl.sign.detached.verify` accepts what `nacl.sign.detached`
produced under a key pair from `nacl.sign.keyPair`. -/
theorem C1_sign_verify_roundtrip (P : CryptoPrims) (seed : Nat) (message : String)
    (hseed : seed < 2 ^ 256) :
    (sign message (generateKeyPair P seed).2 P).map
      (fun sig => verify message sig (generateKeyPair P seed).1 P) = some true := by
  rw [sign_on_generated_key P seed message hseed]
  have hRmem := pointToBytes_mem_lt (P.Hnonce seed message)
  have hRlen := pointToBytes_length (P.Hnonce seed message)
  set r := P.Hnonce seed message with hr
  set a := P.Hsecret seed with hA
  set h1 := P.Hchal (pointToBytes r) (pointToBytes a) message with hh1
  have hsigmem : ∀ b ∈ pointToBytes r ++ natToBytesLE 32 (r + h1 * a).val, b < 256 := by
    intro b hb
    rcases List.mem_append.mp hb with h | h
    · exact hRmem b h
    · exact natToBytesLE_mem_lt _ _ b h
  have hsiglen : (pointToBytes r ++ natToBytesLE 32 (r + h1 * a).val).length = 64 := by
    simp [List.length_append, natToBytesLE_length, pointToBytes_length]
  have htake : (pointToBytes r ++ natToBytesLE 32 (r + h1 * a).val).take 32 = pointToBytes r :=
    take_32_append _ _ hRlen
  have hdrop : (pointToBytes r ++ natToBytesLE 32 (r + h1 * a).val).drop 32 =
      natToBytesLE 32 (r + h1 * a).val := drop_32_append _ _ hRlen
  have hSval : bytesToNatLE (natToBytesLE 32 (r + h1 * a).val) = (r + h1 * a).val :=
    bytesToNatLE_natToBytesLE 32 _ (by
      rw [pow_256_32]
      exact lt_trans (ZMod.val_lt _) (by norm_num [L]))
  have hScast : (((r + h1 * a).val : Nat) : ZMod L) = r + h1 * a :=
    ZMod.natCast_rightInverse _
  have hkey : (r + h1 * a) * 1 - h1 * a = r := by ring
  have hkey' : r + h1 * a - h1 * a = r := by ring
  simp only [Option.map_some', verify, verifyChecked, generateKeyPair,
    decodeBase64_encodeBase64 _ (pointToBytes_mem_lt a),
    decodeBase64_encodeBase64 _ hsigmem,
    pointToBytes_length, hsiglen, htake, hdrop, hSval, hScast,
    bytesToPoint_pointToBytes, mul_one, hkey, hkey']
  simp

/-- C1 witness: the round trip at seed `5` and message `hello`. -/
theorem C1_sign_verify_roundtrip_witness :
    5 < 2 ^ 256 ∧
      (sign "hello" (generateKeyPair testPrims 5).2 testPrims).map
        (fun sig => verify "hello" sig (generateKeyPair testPrims 5).1 testPrims) = some true :=
  ⟨by norm_num, C1_sign_verify_roundtrip testPrims 5 "hello" (by norm_num)⟩

/-- A signature produced by `sign` on the key generated from `seed` is
rejected when checked against the public key of scalar `a'` and message
`msgv`, as soon as the verification equation's two sides differ (which a
mismatched key or an altered message forces outside a hash collision). -/
theorem verify_forged_false (P : CryptoPrims) (seed : Nat) (msg msgv : String) (a' : ZMod L)
    (hseed : seed < 2 ^ 256)
    (hne : P.Hchal (pointToBytes (P.Hnonce seed msg)) (pointToBytes a') msgv * a' ≠
      P.Hchal (pointToBytes (P.Hnonce seed msg)) (pointToBytes (P.Hsecret seed)) msg *
        P.Hsecret seed) :
    (sign msg (generateKeyPair P seed).2 P).map
      (fun sig => verify msgv sig (encodeBase64 (pointToBytes a')) P) = some false := by
  rw [sign_on_generated_key P seed msg hseed]
  have hRmem := pointToBytes_mem_lt (P.Hnonce seed msg)
  have hRlen := pointToBytes_length (P.Hnonce seed msg)
  set r := P.Hnonce seed msg with hr
  set a := P.Hsecret seed with hA
  set h1 := P.Hchal (pointToBytes r) (pointToBytes a) msg with hh1
  set h2 := P.Hchal (pointToBytes r) (pointToBytes a') msgv with hh2
  have hsigmem : ∀ b ∈ pointToBytes r ++ natToBytesLE 32 (r + h1 * a).val, b < 256 := by
    intro b hb
    rcases List.mem_append.mp hb with h | h
    · exact hRmem b h
    · exact natToBytesLE_mem_lt _ _ b h
  have hsiglen : (pointToBytes r ++ natToBytesLE 32 (r + h1 * a).val).length = 64 := by
    simp [List.length_append, natToBytesLE_length, pointToBytes_length]
  have htake : (pointToBytes r ++ natToBytesLE 32 (r + h1 * a).val).take 32 = pointToBytes r :=
    take_32_append _ _ hRlen
  have hdrop : (pointToBytes r ++ natToBytesLE 32 (r + h1 * a).val).drop 32 =
      natToBytesLE 32 (r + h1 * a).val := drop_32_append _ _ hRlen
  have hSval : bytesToNatLE (natToBytesLE 32 (r + h1 * a).val) = (r + h1 * a).val :=
    bytesToNatLE_natToBytesLE 32 _ (by
      rw [pow_256_32]
      exact lt_trans (ZMod.val_lt _) (by norm_num [L]))
  have hScast : (((r + h1 * a).val : Nat) : ZMod L) = r + h1 * a :=
    ZMod.natCast_rightInverse _
  have hfail : pointToBytes (r + h1 * a - h2 * a') ≠ pointToBytes r := by
    intro heq
    have heq' := pointToBytes_injective heq
    have : h2 * a' = h1 * a := by linear_combination - heq'
    exact hne this
  simp only [Option.map_some', verify, verifyChecked,
    decodeBase64_encodeBase64 _ (pointToBytes_mem_lt a'),
    decodeBase64_encodeBase64 _ hsigmem,
    pointToBytes_length, hsiglen, htake, hdrop, hSval, hScast,
    bytesToPoint_pointToBytes, mul_one]
  simp [hfail]

/-- C5: `verify` is a total boolean function: a thrown decoding or size
exception is caught and yields `false` (conjuncts 1–5 cover malformed
base64 in either input and wrong key/signature sizes), and a signature
produced by `sign` is rejected against a mismatched public key
(conjunct 6) or an altered message (conjunct 7), provided the challenge
hashes do not collide on the forged context. -/
theorem C5_verify_never_throws_and_rejects (P : CryptoPrims) :
    (∀ m sb pb e, verifyChecked m sb pb P = Except.error e → verify m sb pb P = false) ∧
    (∀ m sb pb, decodeBase64 pb = none → verify m sb pb P = false) ∧
    (∀ m sb pb, decodeBase64 pb ≠ none → decodeBase64 sb = none → verify m sb pb P = false) ∧
    (∀ m sb pb pk, decodeBase64 pb = some pk → pk.length ≠ 32 → verify m sb pb P = false) ∧
    (∀ m sb pb pk sig, decodeBase64 pb = some pk → decodeBase64 sb = some sig →
      pk.length = 32 → sig.length ≠ 64 → verify m sb pb P = false) ∧
    (∀ seed seed' msg, seed < 2 ^ 256 →
      P.Hchal (pointToBytes (P.Hnonce seed msg)) (pointToBytes (P.Hsecret seed')) msg *
          P.Hsecret seed' ≠
        P.Hchal (pointToBytes (P.Hnonce seed msg)) (pointToBytes (P.Hsecret seed)) msg *
          P.Hsecret seed →
      (sign msg (generateKeyPair P seed).2 P).map
        (fun sig => verify msg sig (generateKeyPair P seed').1 P) = some false) ∧
    (∀ seed msg msg', seed < 2 ^ 256 →
      P.Hchal (pointToBytes (P.Hnonce seed msg)) (pointToBytes (P.Hsecret seed)) msg' *
          P.Hsecret seed ≠
        P.Hchal (pointToBytes (P.Hnonce seed msg)) (pointToBytes (P.Hsecret seed)) msg *
          P.Hsecret seed →
      (sign msg (generateKeyPair P seed).2 P).map
        (fun sig => verify msg' sig (generateKeyPair P seed).1 P) = some false) := by
  refine ⟨?_, ?_, ?_, ?_, ?_, ?_, ?_⟩
  · intro m sb pb e he
    simp [verify, he]
  · intro m sb pb hpb
    simp [verify, verifyChecked, hpb]
  · intro m sb pb hpb hsb
    rcases Option.ne_none_iff_exists'.mp hpb with ⟨pk, hpk⟩
    simp [verify, verifyChecked, hpk, hsb]
  · intro m sb pb pk hpk hlen
    cases hsb : decodeBase64 sb with
    | none => simp [verify, verifyChecked, hpk, hsb]
    | some sig => simp [verify, verifyChecked, hpk, hsb, hlen]
  · intro m sb pb pk sig hpk hsb hpklen hsiglen
    simp [verify, verifyChecked, hpk, hsb, hpklen, hsiglen]
  · intro seed seed' msg hseed hne
    exact verify_forged_false P seed msg msg (P.Hsecret seed') hseed hne
  · intro seed msg msg' hseed hne
    exact verify_forged_false P seed msg msg' (P.Hsecret seed) hseed hne

/-- C5 witness: concrete malformed-input, mismatched-key and
altered-message evaluations. -/
theorem C5_verify_never_throws_and_rejects_witness :
    verify "m" "sig" "!!!" testPrims = false ∧
    verify "m" "!!!" (encodeBase64 (List.replicate 32 0)) testPrims = false ∧
    verify "m" "sig" (encodeBase64 [1, 2, 3]) testPrims = false ∧
    verify "m" (encodeBase64 [1]) (encodeBase64 (List.replicate 32 0)) testPrims = false ∧
    (sign "m" (generateKeyPair testPrims 1).2 testPrims).map
      (fun sig => verify "m" sig (generateKeyPair testPrims 2).1 testPrims) = some false ∧
    (sign "m" (generateKeyPair testPrims 1).2 testPrims).map
      (fun sig => verify "xx" sig (generateKeyPair testPrims 1).1 testPrims) = some false := by
  have c5 := C5_verify_never_throws_and_rejects testPrims
  refine ⟨c5.2.1 "m" "sig" "!!!" (by rfl), ?_, ?_, ?_, ?_, ?_⟩
  · exact c5.2.2.1 "m" "!!!" (encodeBase64 (List.replicate 32 0)) (by decide) (by rfl)
  · exact c5.2.2.2.1 "m" "sig" (encodeBase64 [1, 2, 3]) [1, 2, 3] (by rfl) (by decide)
  · exact c5.2.2.2.2.1 "m" (encodeBase64 [1]) (encodeBase64 (List.replicate 32 0))
      (List.replicate 32 0) [1] (by rfl) (by rfl) (by decide) (by decide)
  · exact c5.2.2.2.2.2.1 1 2 "m" (by norm_num) (by decide)
  · exact c5.2.2.2.2.2.2 1 "m" "xx" (by norm_num) (by decide)

/-- C9: a challenge encrypted by the registry under the Diffie-Hellman
secret of (registry private `b`, node public `a·G`) is decrypted exactly
by `decryptChallenge` with (registry public `b·G`, node private `a`),
assuming the block cipher round trip of the external AES primitive at
the shared key (conjunct 1); and every failure — malformed base64, an
invalid public-key point, or a failing block decryption — surfaces as
the explicit value `none`, never an exception (conjuncts 2–4). -/
theorem C9_decrypt_challenge_roundtrip (E : EncPrims) (a b : ZMod L) (challenge : String)
    (hcipher : E.aesDec (E.Hshared (b * a)) (E.aesEnc (E.Hshared (b * a)) challenge) =
      some challenge)
    (hbytes : ∀ x ∈ E.aesEnc (E.Hshared (b * a)) challenge, x < 256) :
    ((encryptChallengeAsRegistry E b (generateEncryptionKeyPair a).1 challenge).bind
        fun ct => decryptChallenge E ct (generateEncryptionKeyPair b).1
          (generateEncryptionKeyPair a).2) = some challenge ∧
    (∀ s pk sk, decodeBase64 s = none → decryptChallenge E s pk sk = none) ∧
    (∀ s pk sk ct pkB skB, decodeBase64 s = some ct → decodeBase64 pk = some pkB →
      decodeBase64 sk = some skB → bytesToPoint pkB = none →
      decryptChallenge E s pk sk = none) ∧
    (∀ s pk sk ct pkB skB pt, decodeBase64 s = some ct → decodeBase64 pk = some pkB →
      decodeBase64 sk = some skB → bytesToPoint pkB = some pt →
      E.aesDec (E.Hshared (((bytesToNatLE skB : Nat) : ZMod L) * pt)) ct = none →
      decryptChallenge E s pk sk = none) := by
  refine ⟨?_, ?_, ?_, ?_⟩
  · have hskval : bytesToNatLE (natToBytesLE 32 a.val) = a.val :=
      bytesToNatLE_natToBytesLE 32 _ (by
        rw [pow_256_32]
        exact lt_trans (ZMod.val_lt _) (by norm_num [L]))
    have hacast : ((a.val : Nat) : ZMod L) = a := ZMod.natCast_rightInverse a
    have hcomm : a * b = b * a := mul_comm a b
    simp only [encryptChallengeAsRegistry, generateEncryptionKeyPair, decryptChallenge, mul_one,
      decodeBase64_encodeBase64 _ (pointToBytes_mem_lt a),
      decodeBase64_encodeBase64 _ (pointToBytes_mem_lt b),
      decodeBase64_encodeBase64 _ (natToBytesLE_mem_lt 32 a.val),
      decodeBase64_encodeBase64 _ hbytes,
      bytesToPoint_pointToBytes, hskval, hacast, Option.bind_some, Option.some_bind]
    rw [hcomm, hcipher]
  · intro s pk sk hs
    simp [decryptChallenge, hs]
  · intro s pk sk ct pkB skB hs hpk hsk hpt
    simp [decryptChallenge, hs, hpk, hsk, hpt]
  · intro s pk sk ct pkB skB pt hs hpk hsk hpt hdec
    simp [decryptChallenge, hs, hpk, hsk, hpt, hdec]

/-- C9 witness: the round trip with the concrete symmetric primitives at
scalars `1`, `2` and challenge `ch`, plus a malformed-base64 failure. -/
theorem C9_decrypt_challenge_roundtrip_witness :
    testEncPrims.aesDec (testEncPrims.Hshared (2 * 1))
        (testEncPrims.aesEnc (testEncPrims.Hshared (2 * 1)) "ch") = some "ch" ∧
    ((encryptChallengeAsRegistry testEncPrims 2 (generateEncryptionKeyPair 1).1 "ch").bind
        fun ct => decryptChallenge testEncPrims ct (generateEncryptionKeyPair 2).1
          (generateEncryptionKeyPair 1).2) = some "ch" ∧
    decryptChallenge testEncPrims "!!!" "pk" "sk" = none := by
  have h := C9_decrypt_challenge_roundtrip testEncPrims 1 2 "ch" (by decide) (by decide)
  exact ⟨by decide, h.1, h.2.1 "!!!" "pk" "sk" (by rfl)⟩

theorem find_objSet_replace (k : String) (v : Txn) :
    ∀ ps : Store, ps.any (fun p => p.1 = k) = true →
      (ps.map (fun p => if p.1 = k then (k, v) else p)).find? (fun p => p.1 = k) = some (k, v) := by
  intro ps
  induction ps with
  | nil => simp
  | cons p ps ih =>
    intro hany
    by_cases hp : p.1 = k
    · simp [List.find?, hp]
    · have : ps.any (fun p => p.1 = k) = true := by
        simp only [List.any_cons, Bool.or_eq_true, decide_eq_true_eq] at hany
        rcases hany with h | h
        · exact absurd h hp
        · exact h
      simp [List.find?, hp, ih this]

theorem find_objSet_append (k : String) (v : Txn) :
    ∀ ps : Store, ps.any (fun p => p.1 = k) = false →
      (ps ++ [(k, v)]).find? (fun p => p.1 = k) = some (k, v) := by
  intro ps
  induction ps with
  | nil => simp [List.find?]
  | cons p ps ih =>
    intro hany
    simp only [List.any_cons, Bool.or_eq_false_iff, decide_eq_false_iff_not] at hany
    simp [List.find?, hany.1, ih (by simp [hany.2])]

theorem objFind_objSet_self (ps : Store) (k : String) (v : Txn) :
    objFind (objSet ps k v) k = some v := by
  unfold objFind objSet
  by_cases h : ps.any (fun p => p.1 = k) = true
  · rw [if_pos h, find_objSet_replace k v ps h]
    rfl
  · rw [if_neg h, find_objSet_append k v ps (by simp only [Bool.not_eq_true] at h; exact h)]
    rfl

/-- C7: create a transaction, then append two catalog payloads: the
resulting record has exactly `[a, b]` in arrival order and status
`results_ready`. -/
theorem C7_two_catalogs_accumulate (st0 : Store) (t0 t1 t2 T1 mid : String)
    (payload a b : JVal) :
    ∃ txn, getTransaction
        (addCatalogData t2 (addCatalogData t1
          (createTransaction t0 st0 T1 mid payload).2 T1 a).2 T1 b).2 T1 = some txn ∧
      txn.catalogs = [a, b] ∧ txn.status = "results_ready" := by
  simp only [createTransaction, addCatalogData, getTransaction, objFind_objSet_self]
  exact ⟨_, rfl, by simp, rfl⟩

/-- C8: every `add*` operation on an unknown transaction id returns the
not-found signal `null` and leaves the store — hence the set of stored
ids and the transaction count — unchanged. -/
theorem C8_unknown_id_not_found (st : Store) (now tid : String) (payload : JVal)
    (h : getTransaction st tid = none) :
    addCatalogData now st tid payload = (none, st) ∧
    addSelectData now st tid payload = (none, st) ∧
    addInitData now st tid payload = (none, st) ∧
    addStatusData now st tid payload = (none, st) ∧
    addErrorData now st tid payload = (none, st) ∧
    getAllTransactionIds (addCatalogData now st tid payload).2 = getAllTransactionIds st := by
  have h' : objFind st tid = none := h
  refine ⟨?_, ?_, ?_, ?_, ?_, ?_⟩ <;>
    simp [addCatalogData, addSelectData, addInitData, addStatusData, addErrorData, h']

/-- C8 witness: the empty store at id `T1`. -/
theorem C8_unknown_id_not_found_witness :
    getTransaction [] "T1" = none ∧
      (addCatalogData "t" [] "T1" JVal.jnull = (none, []) ∧
      addSelectData "t" [] "T1" JVal.jnull = (none, []) ∧
      addInitData "t" [] "T1" JVal.jnull = (none, []) ∧
      addStatusData "t" [] "T1" JVal.jnull = (none, []) ∧
      addErrorData "t" [] "T1" JVal.jnull = (none, []) ∧
      getAllTransactionIds (addCatalogData "t" [] "T1" JVal.jnull).2 =
        getAllTransactionIds []) :=
  ⟨rfl, C8_unknown_id_not_found [] "t" "T1" JVal.jnull rfl⟩

/-- C2: the store module exports neither `addConfirmData` nor
`addCancelData`, so the `on_confirm` and `on_cancel` handlers NACK with
code 404 for every transaction id — including ids whose transaction
exists in the store — and no store state ever reaches status `confirmed`
or `cancelled` through these callbacks. -/
theorem C2_confirm_cancel_ops_missing (st : Store) (tid : String) (payload : JVal) :
    "addConfirmData" ∉ storeModuleExports ∧ "addCancelData" ∉ storeModuleExports ∧
    onConfirmHandler st (some tid) payload =
      (BecknReply.nackReply "404" "Transaction not found or server error", st) ∧
    onCancelHandler st (some tid) payload =
      (BecknReply.nackReply "404" "Transaction not found or server error", st) := by
  exact ⟨by decide, by decide, rfl, rfl⟩

/-- C3: the inbound verifier does not digest the transmitted bytes: for
the wire body `{"a": 1}` (one interior space), the verifier digests the
re-serialization `{"a":1}` of the parsed body, a different byte string,
so a digest signed over the wire bytes cannot match. -/
theorem C3_verifier_digests_reserialization :
    verifierDigestInput "\x7b\"a\": 1\x7d" = some "\x7b\"a\":1\x7d" ∧
      ("\x7b\"a\":1\x7d" : String) ≠ "\x7b\"a\": 1\x7d" := by
  exact ⟨rfl, by decide⟩

/-- C10: with `DEV_MODE === 'true'` the verifier accepts every request
without reading the Authorization header: any two requests — whatever
their headers, bodies or times — get the same `{valid: true}` verdict. -/
theorem C10_devmode_accepts_everything (P : CryptoPrims) (env : Env)
    (auth1 auth2 : Option String) (body1 body2 : JVal) (now1 now2 : Int)
    (hdev : env.devMode = some "true") :
    verifyAuthorizationHeader P env auth1 body1 now1 = ⟨true, none⟩ ∧
    verifyAuthorizationHeader P env auth1 body1 now1 =
      verifyAuthorizationHeader P env auth2 body2 now2 := by
  constructor <;> simp [verifyAuthorizationHeader, hdev]

/-- C10 witness: an absent header and a forged, expired header get the
same accepting verdict in dev mode. -/
theorem C10_devmode_accepts_everything_witness :
    (Env.mk (some "true") none none none none).devMode = some "true" ∧
    verifyAuthorizationHeader testPrims (Env.mk (some "true") none none none none)
      none JVal.jnull 0 = ⟨true, none⟩ ∧
    verifyAuthorizationHeader testPrims (Env.mk (some "true") none none none none)
      none JVal.jnull 0 =
      verifyAuthorizationHeader testPrims (Env.mk (some "true") none none none none)
        (some "Signature keyId=\"forged\",created=\"0\",expires=\"-1\",signature=\"zz\"")
        (JVal.jbool true) 99999 :=
  ⟨rfl, C10_devmode_accepts_everything testPrims _ none
    (some "Signature keyId=\"forged\",created=\"0\",expires=\"-1\",signature=\"zz\"")
    JVal.jnull (JVal.jbool true) 0 99999 rfl⟩

/-- C4: outside dev mode, for a header carrying all four required fields
whose `expires` parses to the number `e`, the verifier answers with the
distinct error `Authorization header expired` exactly when `now > e` —
before and regardless of any signature computation — and otherwise never
produces that error: the expiry gate passes precisely while `now ≤ e`. -/
theorem C4_expiry_gate (P : CryptoPrims) (env : Env) (authHeader : String) (body : JVal)
    (now e : Int)
    (hdev : env.devMode ≠ some "true")
    (hkey : jsFalsy (objGet (parseAuthorizationHeader authHeader) "keyId") = false)
    (hsig : jsFalsy (objGet (parseAuthorizationHeader authHeader) "signature") = false)
    (hcre : jsFalsy (objGet (parseAuthorizationHeader authHeader) "created") = false)
    (hexp : jsFalsy (objGet (parseAuthorizationHeader authHeader) "expires") = false)
    (hparse : parseIntJS ((objGet (parseAuthorizationHeader authHeader) "expires").getD "") =
      some e) :
    verifyAuthorizationHeader P env (some authHeader) body now =
        ⟨false, some "Authorization header expired"⟩ ↔ now > e := by
  simp only [verifyAuthorizationHeader, if_neg hdev, hkey, hsig, hcre, hexp, hparse,
    Bool.false_eq_true, or_self, if_false, jsGtNum]
  by_cases hgt : now > e
  · rw [if_pos (by simp [hgt])]
    simpa using hgt
  · rw [if_neg (by simp [hgt])]
    constructor
    · intro hres
      exfalso
      revert hres
      split
      · intro hres
        simp [VerifyResult.mk.injEq] at hres
      · intro hres
        rw [VerifyResult.mk.injEq] at hres
        obtain ⟨hval, herr⟩ := hres
        rw [hval] at herr
        simp at herr
    · intro h
      exact absurd h hgt

/-- C4 witness: a fully populated header with `expires = 5` checked at
`now = 10` yields exactly the expiry error. -/
theorem C4_expiry_gate_witness :
    (Env.mk none (some "pk") none none none).devMode ≠ some "true" ∧
    jsFalsy (objGet (parseAuthorizationHeader
      "Signature keyId=\"k\",algorithm=\"ed25519\",created=\"1\",expires=\"5\",headers=\"hd\",signature=\"s\"")
      "keyId") = false ∧
    parseIntJS ((objGet (parseAuthorizationHeader
      "Signature keyId=\"k\",algorithm=\"ed25519\",created=\"1\",expires=\"5\",headers=\"hd\",signature=\"s\"")
      "expires").getD "") = some 5 ∧
    verifyAuthorizationHeader testPrims (Env.mk none (some "pk") none none none)
      (some "Signature keyId=\"k\",algorithm=\"ed25519\",created=\"1\",expires=\"5\",headers=\"hd\",signature=\"s\"")
      JVal.jnull 10 = ⟨false, some "Authorization header expired"⟩ :=
  ⟨by decide, by rfl, by rfl,
    (C4_expiry_gate testPrims (Env.mk none (some "pk") none none none)
      "Signature keyId=\"k\",algorithm=\"ed25519\",created=\"1\",expires=\"5\",headers=\"hd\",signature=\"s\""
      JVal.jnull 10 5 (by decide) (by rfl) (by rfl) (by rfl) (by rfl) (by rfl)).mpr
      (by norm_num)⟩

theorem takeWhile_append_stop (p : Char → Bool) (x : Char) (hx : p x = false) :
    ∀ (l r : List Char), (∀ c ∈ l, p c = true) →
      (l ++ x :: r).takeWhile p = l ∧ (l ++ x :: r).dropWhile p = x :: r := by
  intro l
  induction l with
  | nil => intro r _; simp [List.takeWhile_cons, List.dropWhile_cons, hx]
  | cons c l ih =>
    intro r hl
    have hc : p c = true := hl c (by simp)
    have ht := ih r (fun d hd => hl d (by simp [hd]))
    simp [List.takeWhile_cons, List.dropWhile_cons, hc, ht.1, ht.2]

theorem tryMatch_field (k v rest : List Char) (hk : k ≠ [])
    (hkw : ∀ c ∈ k, isWordChar c = true) (hv : v ≠ [])
    (hvq : ∀ c ∈ v, ¬ c = '"') :
    tryMatch (k ++ '=' :: '"' :: (v ++ '"' :: rest)) = some (k, v, rest) := by
  have hweq : isWordChar '=' = false := rfl
  have hqq : (fun c => decide (¬ c = '"')) '"' = false := by simp
  have h12 := takeWhile_append_stop isWordChar '=' hweq k ('"' :: (v ++ '"' :: rest)) hkw
  have h34 := takeWhile_append_stop (fun c => decide (¬ c = '"')) '"' hqq v rest
    (fun c hc => by simpa using hvq c hc)
  rcases k with _ | ⟨a, tw⟩
  · exact absurd rfl hk
  rcases v with _ | ⟨b, tv⟩
  · exact absurd rfl hv
  simp only [tryMatch, h12.1, h12.2, h34.1, h34.2]

theorem scanAux_succ_match (fuel : Nat) (cs w v r : List Char)
    (h : tryMatch cs = some (w, v, r)) :
    scanAux (fuel + 1) cs = (w, v) :: scanAux fuel r := by
  simp [scanAux, h]

theorem scanAux_succ_skip (fuel : Nat) (c : Char) (t : List Char)
    (h : tryMatch (c :: t) = none) :
    scanAux (fuel + 1) (c :: t) = scanAux fuel t := by
  simp [scanAux, h]

theorem scanAux_nil (fuel : Nat) : scanAux fuel [] = [] := by
  cases fuel <;> rfl

theorem tryMatch_length (cs w v r : List Char) (h : tryMatch cs = some (w, v, r)) :
    r.length + 4 ≤ cs.length := by
  unfold tryMatch at h
  split at h
  · rename_i a tw r2 h1 h2
    split at h
    · rename_i b tv r4 h3 h4
      simp only [Option.some.injEq, Prod.mk.injEq] at h
      obtain ⟨hw, hv, hr⟩ := h
      have e1 := congrArg List.length (List.takeWhile_append_dropWhile (p := isWordChar) (l := cs))
      have e2 := congrArg List.length
        (List.takeWhile_append_dropWhile (p := fun c => decide (¬ c = '"')) (l := r2))
      rw [h1, h2] at e1
      rw [h3, h4] at e2
      simp only [List.length_append, List.length_cons] at e1 e2
      subst hr
      omega
    · exact absurd h (by simp)
  · exact absurd h (by simp)

theorem scanAux_eq_of_le :
    ∀ (f1 : Nat), ∀ (f2 : Nat) (cs : List Char), cs.length ≤ f1 → cs.length ≤ f2 →
      scanAux f1 cs = scanAux f2 cs := by
  intro f1
  induction f1 with
  | zero =>
    intro f2 cs h1 _
    have hcs : cs = [] := List.length_eq_zero.mp (by omega)
    subst hcs
    exact (scanAux_nil f2).symm
  | succ f1 ih =>
    intro f2 cs h1 h2
    cases f2 with
    | zero =>
      have hcs : cs = [] := List.length_eq_zero.mp (by omega)
      subst hcs
      exact scanAux_nil _
    | succ f2 =>
      cases hm : tryMatch cs with
      | some wvr =>
        obtain ⟨w, v, r⟩ := wvr
        have hlen := tryMatch_length cs w v r hm
        rw [scanAux_succ_match f1 cs w v r hm, scanAux_succ_match f2 cs w v r hm,
          ih f2 r (by omega) (by omega)]
      | none =>
        cases cs with
        | nil => rw [scanAux_nil, scanAux_nil]
        | cons c t =>
          rw [scanAux_succ_skip f1 c t hm, scanAux_succ_skip f2 c t hm]
          exact ih f2 t (by simp at h1; omega) (by simp at h2; omega)

theorem parseScan_field (k v rest : List Char) (hk : k ≠ [])
    (hkw : ∀ c ∈ k, isWordChar c = true) (hv : v ≠ [])
    (hvq : ∀ c ∈ v, ¬ c = '"') :
    parseScan (k ++ '=' :: '"' :: (v ++ '"' :: rest)) = (k, v) :: parseScan rest := by
  unfold parseScan
  have hlen : (k ++ '=' :: '"' :: (v ++ '"' :: rest)).length =
      (k.length + v.length + rest.length + 2) + 1 := by
    simp [List.length_append]
    omega
  rw [hlen, scanAux_succ_match _ _ _ _ _ (tryMatch_field k v rest hk hkw hv hvq),
    scanAux_eq_of_le (k.length + v.length + rest.length + 2) rest.length rest (by omega)
      (le_refl _)]

theorem parseScan_comma (rest : List Char) : parseScan (',' :: rest) = parseScan rest := by
  have hm : tryMatch (',' :: rest) = none := by
    have : isWordChar ',' = false := rfl
    simp [tryMatch, List.takeWhile_cons, this]
  unfold parseScan
  rw [List.length_cons, scanAux_succ_skip rest.length ',' rest hm]

theorem data_ne_nil (s : String) (h : s ≠ "") : s.data ≠ [] := by
  intro hd
  apply h
  cases s with
  | mk d =>
    simp only at hd
    rw [hd]

theorem parseScan_fieldChunk (key v : String) (rest : List Char)
    (hkw : ∀ c ∈ key.data, isWordChar c = true) (hknil : key.data ≠ [])
    (hv : v ≠ "") (hvq : ∀ c ∈ v.data, ¬ c = '"') :
    parseScan (fieldChunk key v rest) = (key.data, v.data) :: parseScan rest :=
  parseScan_field key.data v.data rest hknil hkw (data_ne_nil v hv) hvq

/-- The character-level shape of the serialized Authorization header:
the `Signature ` prefix followed by the six `key="value"` fields with
`,` separators. -/
theorem authHeaderString_data (k a c e h s : String) :
    (authHeaderString k a c e h s).data =
      "Signature ".data ++ fieldChunk "keyId" k (',' :: fieldChunk "algorithm" a
        (',' :: fieldChunk "created" c (',' :: fieldChunk "expires" e
        (',' :: fieldChunk "headers" h (',' :: fieldChunk "signature" s []))))) := by
  simp only [authHeaderString, fieldChunk, String.data_append, List.append_assoc]
  rfl

theorem data_mk (l : List Char) : (String.mk l).data = l := rfl

/-- C6: parsing a header serialized by the codec recovers each of the six
field values byte-for-byte (for the nonempty, quote-free values the
serializer emits), and parsing with the `Signature ` prefix removed
yields the identical key/value pairs. -/
theorem C6_header_codec_roundtrip (k a c e h s : String)
    (hk : k ≠ "") (hkq : ∀ ch ∈ k.data, ¬ ch = '"')
    (ha : a ≠ "") (haq : ∀ ch ∈ a.data, ¬ ch = '"')
    (hc : c ≠ "") (hcq : ∀ ch ∈ c.data, ¬ ch = '"')
    (he : e ≠ "") (heq : ∀ ch ∈ e.data, ¬ ch = '"')
    (hh : h ≠ "") (hhq : ∀ ch ∈ h.data, ¬ ch = '"')
    (hs : s ≠ "") (hsq : ∀ ch ∈ s.data, ¬ ch = '"') :
    parseAuthorizationHeader (authHeaderString k a c e h s) =
      [("keyId", k), ("algorithm", a), ("created", c), ("expires", e), ("headers", h),
        ("signature", s)] ∧
    parseAuthorizationHeader (String.mk ((authHeaderString k a c e h s).data.drop
        ("Signature ".data).length)) =
      parseAuthorizationHeader (authHeaderString k a c e h s) := by
  have hscan : parseScan (fieldChunk "keyId" k (',' :: fieldChunk "algorithm" a
      (',' :: fieldChunk "created" c (',' :: fieldChunk "expires" e
      (',' :: fieldChunk "headers" h (',' :: fieldChunk "signature" s [])))))) =
      [("keyId".data, k.data), ("algorithm".data, a.data), ("created".data, c.data),
        ("expires".data, e.data), ("headers".data, h.data), ("signature".data, s.data)] := by
    rw [parseScan_fieldChunk _ _ _ (by decide) (by decide) hk hkq, parseScan_comma,
      parseScan_fieldChunk _ _ _ (by decide) (by decide) ha haq, parseScan_comma,
      parseScan_fieldChunk _ _ _ (by decide) (by decide) hc hcq, parseScan_comma,
      parseScan_fieldChunk _ _ _ (by decide) (by decide) he heq, parseScan_comma,
      parseScan_fieldChunk _ _ _ (by decide) (by decide) hh hhq, parseScan_comma,
      parseScan_fieldChunk _ _ _ (by decide) (by decide) hs hsq]
    rfl
  have hpD := authHeaderString_data k a c e h s
  have hpre : ("Signature ".data).isPrefixOf (authHeaderString k a c e h s).data = true := by
    rw [hpD]
    exact List.isPrefixOf_iff_prefix.mpr (List.prefix_append _ _)
  have hdrop : (authHeaderString k a c e h s).data.drop ("Signature ".data).length =
      fieldChunk "keyId" k (',' :: fieldChunk "algorithm" a
        (',' :: fieldChunk "created" c (',' :: fieldChunk "expires" e
        (',' :: fieldChunk "headers" h (',' :: fieldChunk "signature" s []))))) := by
    rw [hpD]
    exact List.drop_left _ _
  have hnotpre : ("Signature ".data).isPrefixOf (fieldChunk "keyId" k
      (',' :: fieldChunk "algorithm" a (',' :: fieldChunk "created" c
      (',' :: fieldChunk "expires" e (',' :: fieldChunk "headers" h
      (',' :: fieldChunk "signature" s [])))))) = false := by
    simp only [fieldChunk]
    rfl
  have hfull : parseAuthorizationHeader (authHeaderString k a c e h s) =
      [("keyId", k), ("algorithm", a), ("created", c), ("expires", e), ("headers", h),
        ("signature", s)] := by
    simp only [parseAuthorizationHeader]
    rw [hpre]
    simp only [if_true]
    rw [hdrop, hscan]
    rfl
  refine ⟨hfull, ?_⟩
  rw [hfull, hdrop]
  simp only [parseAuthorizationHeader, data_mk]
  rw [hnotpre]
  simp only [Bool.false_eq_true, if_false]
  rw [hscan]
  rfl

/-- C6 witness: the codec round trip at a fully concrete envelope. -/
theorem C6_header_codec_roundtrip_witness :
    ("sub|k1|ed25519" : String) ≠ "" ∧
    parseAuthorizationHeader (authHeaderString "sub|k1|ed25519" "ed25519" "100" "130"
        "(created) (expires) digest" "c2ln") =
      [("keyId", "sub|k1|ed25519"), ("algorithm", "ed25519"), ("created", "100"),
        ("expires", "130"), ("headers", "(created) (expires) digest"), ("signature", "c2ln")] ∧
    parseAuthorizationHeader (String.mk ((authHeaderString "sub|k1|ed25519" "ed25519" "100"
        "130" "(created) (expires) digest" "c2ln").data.drop ("Signature ".data).length)) =
      parseAuthorizationHeader (authHeaderString "sub|k1|ed25519" "ed25519" "100" "130"
        "(created) (expires) digest" "c2ln") := by
  have h := C6_header_codec_roundtrip "sub|k1|ed25519" "ed25519" "100" "130"
    "(created) (expires) digest" "c2ln" (by decide) (by decide) (by decide) (by decide)
    (by decide) (by decide) (by decide) (by decide) (by decide) (by decide) (by decide)
    (by decide)
  exact ⟨by decide, h.1, h.2⟩

end BAP
